import Mathlib

/-!
Verification of the HTTP client core of this repository: retry with
exponential backoff, error classification, URL building, response caching,
in-flight request deduplication, authentication refresh, and the bounded
request queue. All definitions are shallow embeddings of the TypeScript
sources under `packages/http-service` (utils.ts, errors.ts,
http-service.ts) and the throttling module.
-/

namespace HttpSpec

/-- Embedding of `calculateBackoff` from utils.ts (lines 109-111):
exponential backoff `baseDelay * 2 ^ attempt` capped at 30000 ms. -/
def calculateBackoff (attempt : Nat) (baseDelay : Nat) : Nat :=
  min (baseDelay * 2 ^ attempt) 30000

/-- Embedding of the `HttpServiceError` class hierarchy from errors.ts.
The `name` field records the concrete error class; `hasResponse` and
`hasConfig` record whether the opaque `response`/`config` objects were
attached (their contents never influence control flow in the core). -/
structure HttpServiceError where
  name : String
  message : String
  status : Option Nat
  statusText : Option String
  hasResponse : Bool
  hasConfig : Bool
  isNetworkError : Bool
  isTimeoutError : Bool
  isAbortError : Bool
deriving Repr, DecidableEq

/-- Plain `new HttpServiceError(message)` with no options (errors.ts). -/
def HttpServiceError.base (message : String) : HttpServiceError :=
  ⟨"HttpServiceError", message, none, none, false, false, false, false, false⟩

/-- Embedding of the `NetworkError` class (errors.ts lines 39-44). -/
def NetworkError (message : String) : HttpServiceError :=
  ⟨"NetworkError", message, none, none, false, false, true, false, false⟩

/-- Embedding of the `AbortError` class (errors.ts lines 53-58). -/
def AbortError (message : String) : HttpServiceError :=
  ⟨"AbortError", message, none, none, false, false, false, false, true⟩

/-- Embedding of the `ValidationError` class (errors.ts lines 74-79). -/
def ValidationError (message : String) (status : Nat) : HttpServiceError :=
  ⟨"ValidationError", message, some status, none, false, false, false, false, false⟩

/-- Embedding of the `AuthenticationError` class (errors.ts lines 60-65). -/
def AuthenticationError (message : String) (status : Nat) : HttpServiceError :=
  ⟨"AuthenticationError", message, some status, none, false, false, false, false, false⟩

/-- Embedding of the `AuthorizationError` class (errors.ts lines 67-72). -/
def AuthorizationError (message : String) (status : Nat) : HttpServiceError :=
  ⟨"AuthorizationError", message, some status, none, false, false, false, false, false⟩

/-- Embedding of the `ServerError` class (errors.ts lines 81-86). -/
def ServerError (message : String) (status : Nat) : HttpServiceError :=
  ⟨"ServerError", message, some status, none, false, false, false, false, false⟩

/-- Embedding of `createHttpError` from errors.ts (lines 91-123): the
status-to-error-class mapping, with the formatted message
`"HTTP <status>: <statusText>"`. -/
def createHttpError (status : Nat) (statusText : String)
    (hasResponse hasConfig : Bool) : HttpServiceError :=
  let message := "HTTP " ++ toString status ++ ": " ++ statusText
  if status = 400 then ValidationError message status
  else if status = 401 then AuthenticationError message status
  else if status = 403 then AuthorizationError message status
  else if 400 ≤ status ∧ status < 500 then
    ⟨"HttpServiceError", message, some status, some statusText,
      hasResponse, hasConfig, false, false, false⟩
  else if 500 ≤ status then ServerError message status
  else
    ⟨"HttpServiceError", message, some status, some statusText,
      hasResponse, hasConfig, false, false, false⟩

/-- JavaScript truthiness of the optional numeric `error.status` field
(absent or zero is falsy). -/
def statusTruthy : Option Nat → Bool
  | none => false
  | some n => decide (¬ n = 0)

/-- Numeric value of the optional status; only consulted under
`statusTruthy`, mirroring the short-circuit `error.status && ...`. -/
def statusVal : Option Nat → Nat
  | none => 0
  | some n => n

/-- Embedding of `HttpService.shouldRetry` (http-service.ts lines
474-486): client errors in [400,500) are never retried; otherwise retry
on the network flag, the timeout flag, or a (truthy) status ≥ 500. -/
def shouldRetry (e : HttpServiceError) : Bool :=
  if statusTruthy e.status && decide (400 ≤ statusVal e.status)
      && decide (statusVal e.status < 500) then
    false
  else
    e.isNetworkError || e.isTimeoutError ||
      (statusTruthy e.status && decide (500 ≤ statusVal e.status))

/-- C4: for every attempt and base delay the computed retry delay is
`min (baseDelay * 2 ^ attempt) 30000`; with base delay 1000 ms the delays
for attempts 0, 1, 2, 3 are 1000, 2000, 4000, 8000, and every attempt ≥ 5
yields the 30000 ms cap. -/
theorem calculateBackoff_spec :
    (∀ attempt baseDelay,
        calculateBackoff attempt baseDelay = min (baseDelay * 2 ^ attempt) 30000)
    ∧ calculateBackoff 0 1000 = 1000
    ∧ calculateBackoff 1 1000 = 2000
    ∧ calculateBackoff 2 1000 = 4000
    ∧ calculateBackoff 3 1000 = 8000
    ∧ ∀ attempt, 5 ≤ attempt → calculateBackoff attempt 1000 = 30000 := by
  refine ⟨fun _ _ => rfl, by decide, by decide, by decide, by decide, ?_⟩
  intro attempt h
  have h32 : (32 : Nat) ≤ 2 ^ attempt := by
    calc (32 : Nat) = 2 ^ 5 := by norm_num
    _ ≤ 2 ^ attempt := Nat.pow_le_pow_right (by norm_num) h
  have hge : (30000 : Nat) ≤ 1000 * 2 ^ attempt := by nlinarith
  simp [calculateBackoff, min_eq_right hge]

/-- Closed instance of `calculateBackoff_spec` at attempt 6. -/
theorem calculateBackoff_spec_witness :
    (5 : Nat) ≤ 6 ∧ calculateBackoff 6 1000 = 30000 :=
  ⟨by decide, calculateBackoff_spec.2.2.2.2.2 6 (by decide)⟩

/-- C8: `createHttpError` maps 400 to the validation kind, 401 to
authentication, 403 to authorization, every other status in [400,500) to
the generic client-error kind, and every status ≥ 500 to the server kind;
the result always carries the numeric status and the formatted message
`"HTTP <status>: <statusText>"`, independently of the attached
response/config objects. -/
theorem createHttpError_spec (status : Nat) (statusText : String) (hr hc : Bool) :
    ((createHttpError status statusText hr hc).status = some status)
    ∧ ((createHttpError status statusText hr hc).message =
        "HTTP " ++ toString status ++ ": " ++ statusText)
    ∧ (status = 400 → (createHttpError status statusText hr hc).name = "ValidationError")
    ∧ (status = 401 → (createHttpError status statusText hr hc).name = "AuthenticationError")
    ∧ (status = 403 → (createHttpError status statusText hr hc).name = "AuthorizationError")
    ∧ (400 ≤ status → status < 500 → ¬ status = 400 → ¬ status = 401 → ¬ status = 403 →
        (createHttpError status statusText hr hc).name = "HttpServiceError")
    ∧ (500 ≤ status → (createHttpError status statusText hr hc).name = "ServerError") := by
  unfold createHttpError ValidationError AuthenticationError AuthorizationError ServerError
  split_ifs with h1 h2 h3 h4 h5 <;> simp_all

/-- Closed instance of `createHttpError_spec` at status 404. -/
theorem createHttpError_spec_witness :
    (createHttpError 404 "Not Found" false false).status = some 404
    ∧ (createHttpError 404 "Not Found" false false).name = "HttpServiceError" :=
  ⟨(createHttpError_spec 404 "Not Found" false false).1,
   (createHttpError_spec 404 "Not Found" false false).2.2.2.2.2.1
     (by decide) (by decide) (by decide) (by decide) (by decide)⟩

/-- Uppercase hexadecimal digit, as produced by percent-encoding. -/
def hexDigit (n : Nat) : Char :=
  if n < 10 then Char.ofNat (48 + n) else Char.ofNat (55 + n)

/-- Percent-encoding of one byte: `%XY` with uppercase hex digits. -/
def percentByte (b : Nat) : List Char :=
  [Char.ofNat 37, hexDigit (b / 16), hexDigit (b % 16)]

/-- UTF-8 byte sequence of a Unicode code point. -/
def utf8Bytes (n : Nat) : List Nat :=
  if n < 128 then [n]
  else if n < 2048 then [192 + n / 64, 128 + n % 64]
  else if n < 65536 then [224 + n / 4096, 128 + (n / 64) % 64, 128 + n % 64]
  else [240 + n / 262144, 128 + (n / 4096) % 64, 128 + (n / 64) % 64, 128 + n % 64]

/-- Characters left unescaped by JavaScript `encodeURIComponent`:
A-Z, a-z, 0-9 and the marks `- _ . ! ~ * ( )` plus code point 39. -/
def uriUnescaped (n : Nat) : Bool :=
  (65 ≤ n && n ≤ 90) || (97 ≤ n && n ≤ 122) || (48 ≤ n && n ≤ 57) ||
  n = 45 || n = 95 || n = 46 || n = 33 || n = 126 || n = 42 || n = 39 ||
  n = 40 || n = 41

/-- Embedding of JavaScript `encodeURIComponent`: unescaped characters
pass through, every other character is replaced by the percent-encoding
of its UTF-8 bytes. -/
def encodeURIComponent (s : String) : String :=
  String.mk ((s.toList.map fun c =>
    if uriUnescaped c.toNat then [c]
    else ((utf8Bytes c.toNat).map percentByte).flatten).flatten)

/-- JavaScript `url.includes(c)` for a single character, computed over
the character list. -/
def jsIncludesChar (url : String) (c : Char) : Bool :=
  url.toList.contains c

/-- JavaScript values accepted as query parameters (string, number or
boolean); numbers are restricted to integers, which is all the core and
its tests use. -/
inductive ParamValue where
  | str : String → ParamValue
  | num : Int → ParamValue
  | boolean : Bool → ParamValue
deriving Repr, DecidableEq

/-- JavaScript `String(value)` on a query-parameter value. -/
def ParamValue.jsString : ParamValue → String
  | .str s => s
  | .num n => toString n
  | .boolean b => if b then "true" else "false"

/-- The encoded `key=value` pairs built by the loop in `buildURL`
(utils.ts lines 31-41); entries whose value is null or undefined
(modelled as `none`) are skipped. -/
def queryPairs (ps : List (String × Option ParamValue)) : List String :=
  ps.filterMap fun p =>
    match p.2 with
    | none => none
    | some v => some (encodeURIComponent p.1 ++ "=" ++ encodeURIComponent v.jsString)

/-- Embedding of `buildURL` from utils.ts (lines 22-49). The outer
`Option` models an absent `params` argument. -/
def buildURL (url : String) (params : Option (List (String × Option ParamValue))) : String :=
  match params with
  | none => url
  | some ps =>
    if ps.length = 0 then url
    else
      let qs := queryPairs ps
      if qs.length = 0 then url
      else
        let separator := if jsIncludesChar url (Char.ofNat 63) then "&" else "?"
        url ++ separator ++ String.intercalate "&" qs

/-- C9: `buildURL` skips parameters whose value is null or undefined,
percent-encodes each remaining key and value independently, joins the
pairs with the ampersand, appends with a question mark when the base has
none and an ampersand otherwise, and returns the base unchanged when the
parameter set is absent or every value is skipped; concretely the two
example URLs of the spec are produced. -/
theorem buildURL_spec :
    (∀ url, buildURL url none = url)
    ∧ (∀ url ps, queryPairs ps = [] → buildURL url (some ps) = url)
    ∧ (∀ url ps, ¬ queryPairs ps = [] →
        buildURL url (some ps) =
          url ++ (if jsIncludesChar url (Char.ofNat 63) then "&" else "?")
              ++ String.intercalate "&" (queryPairs ps))
    ∧ (∀ k ps, queryPairs ((k, none) :: ps) = queryPairs ps)
    ∧ (∀ k v ps, queryPairs ((k, some v) :: ps) =
        (encodeURIComponent k ++ "=" ++ encodeURIComponent v.jsString) :: queryPairs ps)
    ∧ buildURL "https://x/y"
        (some [("a", some (ParamValue.num 1)), ("b", some (ParamValue.str "h w"))])
        = "https://x/y?a=1&b=h%20w"
    ∧ buildURL "https://x/y?z=1" (some [("a", some (ParamValue.num 1))])
        = "https://x/y?z=1&a=1" := by
  refine ⟨fun _ => rfl, ?_, ?_, ?_, ?_, by decide, by decide⟩
  · intro url ps h
    cases ps with
    | nil => rfl
    | cons p ps => simp [buildURL, h]
  · intro url ps h
    cases ps with
    | nil => simp [queryPairs] at h
    | cons p ps =>
      have hlen : ¬ (queryPairs (p :: ps)).length = 0 := by
        simpa [List.length_eq_zero] using h
      simp [buildURL, hlen]
  · intro k ps
    simp [queryPairs]
  · intro k v ps
    simp [queryPairs]

/-- Closed instance of `buildURL_spec`: a parameter list whose only value
is null is skipped entirely and the base URL is returned unchanged. -/
theorem buildURL_spec_witness :
    buildURL "https://x/y" (some [("a", none)]) = "https://x/y" :=
  buildURL_spec.2.1 "https://x/y" [("a", none)] (by decide)

/-- JavaScript `value || default` on an optional numeric configuration
field: both an absent value and an explicit 0 fall back to the default. -/
def jsOrDefault (v : Option Nat) (d : Nat) : Nat :=
  match v with
  | none => d
  | some n => if n = 0 then d else n

/-- Raw `QueueConfig` as passed to the `RequestQueue` constructor. -/
structure QueueConfigIn where
  maxConcurrent : Option Nat
  maxQueueSize : Option Nat
  requestsPerSecond : Option Nat
deriving Repr, DecidableEq

/-- Resolved queue configuration after constructor defaulting. -/
structure QueueConfigRes where
  maxConcurrent : Nat
  maxQueueSize : Nat
  requestsPerSecond : Nat
deriving Repr, DecidableEq

/-- One queued admission: its priority score and arrival timestamp. -/
structure QueuedRequest where
  priority : Int
  timestamp : Nat
deriving Repr, DecidableEq

/-- State of a `RequestQueue` (throttling module). -/
structure RequestQueue where
  queue : List QueuedRequest
  activeRequests : Nat
  config : QueueConfigRes
  lastRequestTime : Nat
deriving Repr, DecidableEq

/-- Embedding of the `RequestQueue` constructor (throttling module): each
numeric option is defaulted with `||`, so an explicit 0 falls back to the
default (6 concurrent, 100 queue slots, 10 requests per second). -/
def mkRequestQueue (config : QueueConfigIn) : RequestQueue :=
  ⟨[], 0,
    ⟨jsOrDefault config.maxConcurrent 6,
     jsOrDefault config.maxQueueSize 100,
     jsOrDefault config.requestsPerSecond 10⟩, 0⟩

/-- Stable insertion of a request into a priority-descending list: the
new request goes after all entries of greater or equal priority. -/
def insertByPriorityDesc (r : QueuedRequest) : List QueuedRequest → List QueuedRequest
  | [] => [r]
  | x :: xs =>
    if x.priority < r.priority then r :: x :: xs else x :: insertByPriorityDesc r xs

/-- Embedding of `sortQueue`: stable sort by descending priority, the
comparator being `(a, b) => b.priority - a.priority`. -/
def sortQueue (l : List QueuedRequest) : List QueuedRequest :=
  l.foldl (fun acc r => insertByPriorityDesc r acc) []

/-- Embedding of `RequestQueue.enqueue` (throttling module): reject with
the queue-full error when the queue already holds `maxQueueSize` entries,
otherwise append the request and re-sort. Draining (`processQueue`) is
asynchronous and does not alter the admission decision. -/
def RequestQueue.enqueue (q : RequestQueue) (r : QueuedRequest) :
    Except String RequestQueue :=
  if q.config.maxQueueSize ≤ q.queue.length then
    Except.error "Request queue is full"
  else
    Except.ok { q with queue := sortQueue (q.queue ++ [r]) }

/-- C7 counterexample: a `RequestQueue` constructed with `maxQueueSize = 0`
does not reject `enqueue` immediately — the constructor turns 0 into the
default 100, and enqueue on the empty queue succeeds. -/
theorem enqueue_maxQueueSizeZero_not_rejected :
    (mkRequestQueue ⟨none, some 0, none⟩).config.maxQueueSize = 100
    ∧ (mkRequestQueue ⟨none, some 0, none⟩).enqueue ⟨0, 0⟩
        = Except.ok ⟨[⟨0, 0⟩], 0, ⟨6, 100, 10⟩, 0⟩ :=
  ⟨rfl, rfl⟩

/-- C7 amended: `enqueue` rejects immediately with the queue-full error
exactly when the queue already holds at least its effective configured
maximum, where the constructor maps an absent or zero `maxQueueSize` to
the default 100 — so a queue constructed with `maxQueueSize = 0` only
rejects once 100 entries are queued. -/
theorem enqueue_queueFull_spec :
    (∀ q r, RequestQueue.enqueue q r = Except.error "Request queue is full"
        ↔ q.config.maxQueueSize ≤ q.queue.length)
    ∧ ∀ cfg, (mkRequestQueue cfg).config.maxQueueSize = jsOrDefault cfg.maxQueueSize 100 := by
  constructor
  · intro q r
    unfold RequestQueue.enqueue
    split_ifs with h <;> simp [h]
  · intro cfg
    rfl

/-- Closed instance of `enqueue_queueFull_spec`: a queue with effective
maximum 1 that already holds one entry rejects enqueue. -/
theorem enqueue_queueFull_spec_witness :
    RequestQueue.enqueue ⟨[⟨0, 0⟩], 0, ⟨6, 1, 10⟩, 0⟩ ⟨0, 1⟩
      = Except.error "Request queue is full" :=
  (enqueue_queueFull_spec.1 ⟨[⟨0, 0⟩], 0, ⟨6, 1, 10⟩, 0⟩ ⟨0, 1⟩).mpr (by decide)

/-- A raw exception thrown by `executeRequest` (or below) before
`handleRequestError` classifies it: a thrown `DOMException` abort, a
thrown `TypeError` with its message (failed fetch), a thrown
`HttpServiceError`, some other `Error` carrying a message, or a
non-`Error` value. -/
inductive RawError where
  | domAbort : RawError
  | typeErr : String → RawError
  | svcErr : HttpServiceError → RawError
  | otherErr : String → RawError
  | nonError : RawError
deriving Repr, DecidableEq

/-- Guard of the auth-refresh branch in `makeRequestWithAuth`: the thrown
value is an `HttpServiceError` whose status is 401. -/
def rawIs401 : RawError → Bool
  | .svcErr e => decide (e.status = some 401)
  | _ => false

/-- Observable record of one logical call through `makeRequestWithAuth`:
the final outcome, the number of `refreshAuthToken` invocations, and the
number of physical dispatches (`executeRequest` calls). -/
structure AuthDispatchLog (α : Type) where
  result : Except RawError α
  refreshCalls : Nat
  dispatches : Nat
deriving Repr

/-- Embedding of `makeRequestWithAuth` (http-service.ts lines 368-392).
`exec n` is the outcome of the n-th physical dispatch of this logical
call; `refreshResult` is what `refreshAuthToken` yields (`none` when no
refresh function is configured or the refresh fails). On a 401 from the
first attempt of a request that did not opt out of auth handling, the
token is refreshed once and, if a token came back, the dispatch is
retried exactly once with `attempt + 1`. -/
def makeRequestWithAuth {α : Type} (exec : Nat → Except RawError α)
    (refreshResult : Option String) (skipAuth : Bool) (attempt : Nat) :
    AuthDispatchLog α :=
  match exec attempt with
  | .ok v => ⟨.ok v, 0, 1⟩
  | .error raw =>
    if h : rawIs401 raw = true ∧ skipAuth = false ∧ attempt = 0 then
      match refreshResult with
      | some _ =>
        let r1 := makeRequestWithAuth exec refreshResult skipAuth (attempt + 1)
        ⟨r1.result, r1.refreshCalls + 1, r1.dispatches + 1⟩
      | none => ⟨.error raw, 1, 1⟩
    else ⟨.error raw, 0, 1⟩
termination_by 1 - attempt
decreasing_by
  have h0 := h.2.2
  omega

/-- On any attempt other than the first, `makeRequestWithAuth` never
refreshes: it returns the dispatch outcome directly. -/
theorem makeRequestWithAuth_laterAttempt {α : Type} (exec : Nat → Except RawError α)
    (refreshResult : Option String) (skipAuth : Bool) (attempt : Nat)
    (ha : ¬ attempt = 0) :
    makeRequestWithAuth exec refreshResult skipAuth attempt =
      match exec attempt with
      | .ok v => ⟨.ok v, 0, 1⟩
      | .error raw => ⟨.error raw, 0, 1⟩ := by
  rw [makeRequestWithAuth]
  cases hexec : exec attempt with
  | ok v => rfl
  | error raw => simp [ha]

/-- C3: when the first dispatch fails with HTTP 401 and the request did
not opt out of auth handling, exactly one token refresh and at most one
retried dispatch occur; if the refresh yields a token and the retried
dispatch also fails with 401, no second refresh is attempted and that
401 propagates to the caller. -/
theorem auth_refresh_once {α : Type} (exec : Nat → Except RawError α)
    (refreshResult : Option String) (e : HttpServiceError)
    (h0 : exec 0 = Except.error (RawError.svcErr e)) (h401 : e.status = some 401) :
    ((makeRequestWithAuth exec refreshResult false 0).refreshCalls = 1
      ∧ (makeRequestWithAuth exec refreshResult false 0).dispatches ≤ 2)
    ∧ ∀ t e1, refreshResult = some t →
        exec 1 = Except.error (RawError.svcErr e1) → e1.status = some 401 →
        makeRequestWithAuth exec refreshResult false 0
          = ⟨Except.error (RawError.svcErr e1), 1, 2⟩ := by
  have hg : rawIs401 (RawError.svcErr e) = true := by simp [rawIs401, h401]
  rw [makeRequestWithAuth, h0]
  dsimp only
  split_ifs with hcond
  · cases refreshResult with
    | none =>
      exact ⟨⟨rfl, by dsimp only; omega⟩, fun t e1 hr => absurd hr (by simp)⟩
    | some t0 =>
      rw [makeRequestWithAuth_laterAttempt exec (some t0) false (0 + 1) (by omega)]
      cases hexec : exec (0 + 1) with
      | ok v =>
        refine ⟨⟨rfl, by simp⟩, ?_⟩
        intro t e1 _ h1 _
        exact absurd h1 (by simp)
      | error raw =>
        refine ⟨⟨rfl, by simp⟩, ?_⟩
        intro t e1 _ h1 _
        injection h1 with hraw
        simp [hraw]
  · exact absurd ⟨hg, rfl, rfl⟩ hcond

/-- Concrete dispatch oracle that fails with HTTP 401 on every attempt. -/
def exec401 : Nat → Except RawError Unit :=
  fun _ => Except.error (RawError.svcErr (createHttpError 401 "Unauthorized" true true))

/-- Closed instance of `auth_refresh_once`: both dispatches return 401,
so the call performs one refresh, two dispatches, and propagates the
second 401. -/
theorem auth_refresh_once_witness :
    makeRequestWithAuth exec401 (some "token2") false 0
      = ⟨Except.error (RawError.svcErr (createHttpError 401 "Unauthorized" true true)), 1, 2⟩ :=
  (auth_refresh_once exec401 (some "token2")
      (createHttpError 401 "Unauthorized" true true) rfl (by decide)).2
    "token2" (createHttpError 401 "Unauthorized" true true) rfl rfl (by decide)

/-- Whether the pattern occurs at the head of the character list. -/
def charsStartWith : List Char → List Char → Bool
  | _, [] => true
  | [], _ :: _ => false
  | c :: cs, p :: ps => c == p && charsStartWith cs ps

/-- Whether the pattern occurs anywhere in the character list. -/
def charsInclude (pat : List Char) : List Char → Bool
  | [] => charsStartWith [] pat
  | c :: cs => charsStartWith (c :: cs) pat || charsInclude pat cs

/-- JavaScript `s.includes(pat)`, computed over the character lists. -/
def jsIncludes (s pat : String) : Bool :=
  charsInclude pat.toList s.toList

/-- The connectivity test of `handleRequestError`: the message mentions
Network, network, or fetch. -/
def msgIndicatesNetwork (m : String) : Bool :=
  jsIncludes m "Network" || jsIncludes m "network" || jsIncludes m "fetch"

/-- Result of `handleRequestError` (http-service.ts lines 426-455): the
error is either rethrown from inside the catch block of `makeRequest`
(escaping its retry logic) or wrapped, passed through the error
interceptors, and returned for the retry decision. -/
inductive HandleOutcome where
  | thrown : HttpServiceError → HandleOutcome
  | processed : HttpServiceError → HandleOutcome
deriving Repr, DecidableEq

/-- Embedding of `wrapError` (http-service.ts lines 460-469): an
`HttpServiceError` passes through, anything else becomes a generic
`HttpServiceError` carrying the original message (or the fallback) and
the request config. The abort case never reaches `wrapError` because
`handleRequestError` rethrows it first. -/
def wrapError : RawError → HttpServiceError
  | .svcErr e => e
  | .typeErr m => ⟨"HttpServiceError", m, none, none, false, true, false, false, false⟩
  | .otherErr m => ⟨"HttpServiceError", m, none, none, false, true, false, false, false⟩
  | .domAbort =>
    ⟨"HttpServiceError", "The operation was aborted.", none, none, false, true, false, false, false⟩
  | .nonError =>
    ⟨"HttpServiceError", "Unknown error occurred", none, none, false, true, false, false, false⟩

/-- Embedding of `handleRequestError` (http-service.ts lines 426-455).
`chain` is the composed error-interceptor chain. Aborts and errors whose
message indicates a connectivity problem are rethrown — note that a
`throw` inside the catch block of `makeRequest` escapes it — while
everything else is wrapped and run through the error interceptors. -/
def handleRequestError (chain : HttpServiceError → HttpServiceError) :
    RawError → HandleOutcome
  | .domAbort => .thrown (AbortError "Request aborted")
  | .typeErr m =>
    if jsIncludes m "fetch" then .thrown (NetworkError "Network error occurred")
    else if msgIndicatesNetwork m then .thrown (NetworkError m)
    else .processed (chain (wrapError (.typeErr m)))
  | .svcErr e =>
    if msgIndicatesNetwork e.message then .thrown (NetworkError e.message)
    else .processed (chain e)
  | .otherErr m =>
    if msgIndicatesNetwork m then .thrown (NetworkError m)
    else .processed (chain (wrapError (.otherErr m)))
  | .nonError => .processed (chain (wrapError .nonError))

/-- Observable record of one `makeRequest` run: the final outcome, the
number of physical dispatch attempts, the number of error-interceptor
chain applications, and the backoff delays slept before each retry. -/
structure RetryLog (α : Type) where
  result : Except HttpServiceError α
  dispatches : Nat
  interceptorRuns : Nat
  delays : List Nat
deriving Repr

/-- Embedding of `makeRequest` (http-service.ts lines 397-421).
`dispatch n` is the outcome of `makeRequestWithAuth` on the n-th backoff
attempt (the auth sublayer is analysed separately and always starts at
its own attempt 0); `chain` is the composed error-interceptor chain
applied inside `handleRequestError`; `retries` and `retryDelay` are the
per-request resolved values. A rethrown (abort or network) error escapes
the catch block, bypassing both the interceptors and the retry decision. -/
def makeRequest {α : Type} (dispatch : Nat → Except RawError α)
    (chain : HttpServiceError → HttpServiceError)
    (retries : Nat) (retryDelay : Nat) (attempt : Nat) : RetryLog α :=
  match dispatch attempt with
  | .ok v => ⟨.ok v, 1, 0, []⟩
  | .error raw =>
    match handleRequestError chain raw with
    | .thrown e => ⟨.error e, 1, 0, []⟩
    | .processed e =>
      if h : attempt < retries ∧ shouldRetry e = true then
        let r1 := makeRequest dispatch chain retries retryDelay (attempt + 1)
        ⟨r1.result, r1.dispatches + 1, r1.interceptorRuns + 1,
          calculateBackoff attempt retryDelay :: r1.delays⟩
      else ⟨.error e, 1, 1, []⟩
termination_by retries - attempt
decreasing_by
  have h0 := h.1
  omega

/-- An `HttpServiceError` whose message does not read as a connectivity
problem is processed: wrapped (identity on service errors) and passed
through the error interceptors. -/
theorem handleRequestError_svcErr (chain : HttpServiceError → HttpServiceError)
    (e : HttpServiceError) (hnet : msgIndicatesNetwork e.message = false) :
    handleRequestError chain (RawError.svcErr e) = HandleOutcome.processed (chain e) := by
  simp [handleRequestError, hnet]

/-- One-step characterisation of the retry decision of `makeRequest` on a
processed failure: retried (with the backoff delay recorded) exactly when
attempts remain and the classified error is retry-eligible. -/
theorem makeRequest_step_processed {α : Type} (dispatch : Nat → Except RawError α)
    (chain : HttpServiceError → HttpServiceError) (raw : RawError) (e : HttpServiceError)
    (retries rd attempt : Nat)
    (hd : dispatch attempt = Except.error raw)
    (hp : handleRequestError chain raw = HandleOutcome.processed e) :
    (attempt < retries ∧ shouldRetry e = true →
      makeRequest dispatch chain retries rd attempt =
        ⟨(makeRequest dispatch chain retries rd (attempt + 1)).result,
         (makeRequest dispatch chain retries rd (attempt + 1)).dispatches + 1,
         (makeRequest dispatch chain retries rd (attempt + 1)).interceptorRuns + 1,
         calculateBackoff attempt rd :: (makeRequest dispatch chain retries rd (attempt + 1)).delays⟩)
    ∧ (¬ (attempt < retries ∧ shouldRetry e = true) →
      makeRequest dispatch chain retries rd attempt = ⟨Except.error e, 1, 1, []⟩) := by
  constructor <;> intro hc <;> rw [makeRequest, hd] <;> dsimp only <;> rw [hp] <;> dsimp only
  · rw [dif_pos hc]
  · rw [dif_neg hc]

/-- When every dispatch fails with the same processed retry-eligible
service error, `makeRequest` keeps retrying until the attempt budget is
exhausted, running the error interceptors once per failed attempt. -/
theorem makeRequest_constFail {α : Type} (dispatch : Nat → Except RawError α)
    (e : HttpServiceError)
    (hd : ∀ n, dispatch n = Except.error (RawError.svcErr e))
    (hnet : msgIndicatesNetwork e.message = false)
    (hretry : shouldRetry e = true) (retries rd : Nat) :
    ∀ k attempt, retries - attempt = k →
      (makeRequest dispatch id retries rd attempt).result = Except.error e
      ∧ (makeRequest dispatch id retries rd attempt).dispatches = k + 1
      ∧ (makeRequest dispatch id retries rd attempt).interceptorRuns = k + 1 := by
  intro k
  induction k with
  | zero =>
    intro attempt hk
    rw [makeRequest, hd attempt]
    dsimp only
    rw [handleRequestError_svcErr id e hnet]
    dsimp only [id]
    split_ifs with hc
    · exact absurd hc.1 (by omega)
    · exact ⟨rfl, rfl, rfl⟩
  | succ k ih =>
    intro attempt hk
    have hlt : attempt < retries := by omega
    rw [makeRequest, hd attempt]
    dsimp only
    rw [handleRequestError_svcErr id e hnet]
    dsimp only [id]
    split_ifs with hc
    · have ih1 := ih (attempt + 1) (by omega)
      refine ⟨?_, ?_, ?_⟩
      · dsimp only
        exact ih1.1
      · dsimp only
        rw [ih1.2.1]
      · dsimp only
        rw [ih1.2.2]
    · exact absurd ⟨hlt, hretry⟩ hc

/-- A dispatch failure that is a `TypeError` mentioning fetch (the shape
a failed `fetch` call throws) is rethrown as a `NetworkError` before the
retry decision: one dispatch, no interceptor run, no retry. -/
theorem makeRequest_thrownNetwork {α : Type} (dispatch : Nat → Except RawError α)
    (chain : HttpServiceError → HttpServiceError) (m : String)
    (retries rd attempt : Nat)
    (hd : dispatch attempt = Except.error (RawError.typeErr m))
    (hf : jsIncludes m "fetch" = true) :
    makeRequest dispatch chain retries rd attempt
      = ⟨Except.error (NetworkError "Network error occurred"), 1, 0, []⟩ := by
  rw [makeRequest, hd]
  dsimp only
  simp [handleRequestError, hf]

/-- Dispatch oracle whose every attempt throws the `TypeError` a failed
`fetch` raises. -/
def fetchRejectOracle : Nat → Except RawError Unit :=
  fun _ => Except.error (RawError.typeErr "Failed to fetch")

/-- The 503 error `executeRequest` throws for a 503 response. -/
def err503 : HttpServiceError := createHttpError 503 "Service Unavailable" true true

/-- Dispatch oracle whose every attempt fails with a 503 response. -/
def always503Oracle : Nat → Except RawError Unit :=
  fun _ => Except.error (RawError.svcErr err503)

/-- C1 counterexample: with three retries configured, a simulated network
exception (a `TypeError` from fetch) is NOT retried — it is rethrown as a
network-classified error from inside the catch block of `makeRequest`, so
exactly one dispatch happens even though the classified error is
retry-eligible by `shouldRetry`. -/
theorem network_exception_not_retried_cex :
    makeRequest fetchRejectOracle id 3 1000 0
      = ⟨Except.error (NetworkError "Network error occurred"), 1, 0, []⟩
    ∧ shouldRetry (NetworkError "Network error occurred") = true :=
  ⟨makeRequest_thrownNetwork fetchRejectOracle id "Failed to fetch" 3 1000 0 rfl (by decide),
   by decide⟩

/-- C1 amended: a failure whose processed error reaches the retry
decision is retried with backoff while attempts remain iff `shouldRetry`
holds of it — that is, iff it is not a (truthy) client-error status in
[400,500) and is flagged network or timeout or carries a status ≥ 500;
any 4xx failure therefore fails on the first attempt, and a repeated 503
is retried up to the configured maximum. A simulated network exception,
however, is rethrown as a network error before the retry decision ever
runs and is never retried. -/
theorem retry_eligibility_spec :
    (∀ e : HttpServiceError, shouldRetry e = true ↔
        (¬ (statusTruthy e.status = true ∧ 400 ≤ statusVal e.status ∧ statusVal e.status < 500))
        ∧ (e.isNetworkError = true ∨ e.isTimeoutError = true
            ∨ (statusTruthy e.status = true ∧ 500 ≤ statusVal e.status)))
    ∧ (∀ (α : Type) (dispatch : Nat → Except RawError α)
          (chain : HttpServiceError → HttpServiceError) (raw : RawError)
          (e : HttpServiceError) (retries rd attempt : Nat),
        dispatch attempt = Except.error raw →
        handleRequestError chain raw = HandleOutcome.processed e →
        ¬ (attempt < retries ∧ shouldRetry e = true) →
        makeRequest dispatch chain retries rd attempt = ⟨Except.error e, 1, 1, []⟩)
    ∧ (∀ (e : HttpServiceError) (s : Nat), e.status = some s → 400 ≤ s → s < 500 →
        shouldRetry e = false)
    ∧ (∀ (α : Type) (dispatch : Nat → Except RawError α) (e : HttpServiceError),
        (∀ n, dispatch n = Except.error (RawError.svcErr e)) →
        msgIndicatesNetwork e.message = false → shouldRetry e = true →
        ∀ retries rd, (makeRequest dispatch id retries rd 0).dispatches = retries + 1
          ∧ (makeRequest dispatch id retries rd 0).result = Except.error e)
    ∧ (∀ (α : Type) (dispatch : Nat → Except RawError α)
          (chain : HttpServiceError → HttpServiceError) (m : String) (retries rd : Nat),
        dispatch 0 = Except.error (RawError.typeErr m) → jsIncludes m "fetch" = true →
        makeRequest dispatch chain retries rd 0
          = ⟨Except.error (NetworkError "Network error occurred"), 1, 0, []⟩) := by
  refine ⟨?_, ?_, ?_, ?_, ?_⟩
  · intro e
    unfold shouldRetry
    split_ifs with hc
    · simp only [Bool.false_eq_true, false_iff]
      intro hcon
      rcases hcon with ⟨hno, _⟩
      apply hno
      simpa [and_assoc] using hc
    · constructor
      · intro hb
        refine ⟨?_, ?_⟩
        · intro hcl
          apply hc
          simp [hcl.1, hcl.2.1, hcl.2.2]
        · simpa [or_assoc] using hb
      · intro ⟨_, hb⟩
        simpa [or_assoc] using hb
  · intro α dispatch chain raw e retries rd attempt hd hp hc
    exact (makeRequest_step_processed dispatch chain raw e retries rd attempt hd hp).2 hc
  · intro e s hs h4 h5
    unfold shouldRetry
    rw [if_pos]
    simp [statusTruthy, statusVal, hs]
    omega
  · intro α dispatch e hd hnet hretry retries rd
    have h := makeRequest_constFail dispatch e hd hnet hretry retries rd retries 0 (by omega)
    exact ⟨h.2.1, h.1⟩
  · intro α dispatch chain m retries rd hd hf
    exact makeRequest_thrownNetwork dispatch chain m retries rd 0 hd hf

/-- Closed instance of `retry_eligibility_spec`: a repeated 503 with two
retries configured dispatches three times, and a 404 is not
retry-eligible. -/
theorem retry_eligibility_spec_witness :
    (makeRequest always503Oracle id 2 1000 0).dispatches = 2 + 1
    ∧ shouldRetry (createHttpError 404 "Not Found" true true) = false :=
  ⟨(retry_eligibility_spec.2.2.2.1 Unit always503Oracle err503 (fun _ => rfl)
      (by decide) (by decide) 2 1000).1,
   retry_eligibility_spec.2.2.1 (createHttpError 404 "Not Found" true true) 404
     (by decide) (by decide) (by decide)⟩

/-- C6 counterexample: with one retry configured and every dispatch
failing with 503, the error-interceptor chain is applied twice — once on
the first failure, which the backoff mechanism then retries — so error
interceptors do see non-final, retried failures. -/
theorem error_interceptors_retried_failure_cex :
    (makeRequest always503Oracle id 1 1000 0).interceptorRuns = 2
    ∧ (makeRequest always503Oracle id 1 1000 0).dispatches = 2 := by
  have h := makeRequest_constFail always503Oracle err503 (fun _ => rfl)
    (by decide) (by decide) 1 1000 1 0 (by omega)
  exact ⟨h.2.2, h.2.1⟩

/-- C6 amended: the error-interceptor chain runs once per failed attempt
whose error the handler returns (rather than rethrows) — before the retry
decision, so interceptors also see failures that are subsequently
retried; rethrown network failures bypass the chain entirely. -/
theorem error_interceptor_timing_spec :
    (∀ (α : Type) (dispatch : Nat → Except RawError α) (e : HttpServiceError),
        (∀ n, dispatch n = Except.error (RawError.svcErr e)) →
        msgIndicatesNetwork e.message = false → shouldRetry e = true →
        ∀ retries rd,
          (makeRequest dispatch id retries rd 0).interceptorRuns = retries + 1
          ∧ (makeRequest dispatch id retries rd 0).dispatches = retries + 1)
    ∧ (∀ (α : Type) (dispatch : Nat → Except RawError α)
          (chain : HttpServiceError → HttpServiceError) (m : String) (retries rd : Nat),
        dispatch 0 = Except.error (RawError.typeErr m) → jsIncludes m "fetch" = true →
        (makeRequest dispatch chain retries rd 0).interceptorRuns = 0) := by
  constructor
  · intro α dispatch e hd hnet hretry retries rd
    have h := makeRequest_constFail dispatch e hd hnet hretry retries rd retries 0 (by omega)
    exact ⟨h.2.2, h.2.1⟩
  · intro α dispatch chain m retries rd hd hf
    rw [makeRequest_thrownNetwork dispatch chain m retries rd 0 hd hf]

/-- Closed instance of `error_interceptor_timing_spec`: with three
retries and constant 503 failures the interceptor chain runs four times;
a thrown fetch error never reaches it. -/
theorem error_interceptor_timing_spec_witness :
    (makeRequest always503Oracle id 3 1000 0).interceptorRuns = 3 + 1
    ∧ (makeRequest fetchRejectOracle id 3 1000 0).interceptorRuns = 0 :=
  ⟨(error_interceptor_timing_spec.1 Unit always503Oracle err503 (fun _ => rfl)
      (by decide) (by decide) 3 1000).1,
   error_interceptor_timing_spec.2 Unit fetchRejectOracle id "Failed to fetch" 3 1000
     rfl (by decide)⟩

/-- Lookup in the pending-request table (JavaScript `Map.get`). -/
def mapFind : List (String × Nat) → String → Option Nat
  | [], _ => none
  | p :: ps, k => if p.1 = k then some p.2 else mapFind ps k

/-- Insert or overwrite an entry (JavaScript `Map.set`). -/
def mapSet : List (String × Nat) → String → Nat → List (String × Nat)
  | [], k, v => [(k, v)]
  | p :: ps, k, v => if p.1 = k then (k, v) :: ps else p :: mapSet ps k v

/-- Remove the entry with the given key (JavaScript `Map.delete`). -/
def mapDelete (l : List (String × Nat)) (k : String) : List (String × Nat) :=
  l.filter (fun p => decide (¬ p.1 = k))

theorem mapFind_mapSet_self (l : List (String × Nat)) (k : String) (v : Nat) :
    mapFind (mapSet l k v) k = some v := by
  induction l with
  | nil => simp [mapSet, mapFind]
  | cons p ps ih =>
    by_cases h : p.1 = k
    · simp [mapSet, h, mapFind]
    · simp [mapSet, h, mapFind, ih]

theorem mapFind_mapSet_ne (l : List (String × Nat)) (k k2 : String) (v : Nat)
    (h : ¬ k2 = k) : mapFind (mapSet l k v) k2 = mapFind l k2 := by
  have h2 : ¬ k = k2 := fun hh => h hh.symm
  induction l with
  | nil => simp [mapSet, mapFind, h2]
  | cons p ps ih =>
    by_cases hp : p.1 = k
    · subst hp
      simp [mapSet, mapFind, h2]
    · simp [mapSet, hp, mapFind, ih]

theorem mapFind_mapDelete_self (l : List (String × Nat)) (k : String) :
    mapFind (mapDelete l k) k = none := by
  induction l with
  | nil => simp [mapDelete, mapFind]
  | cons p ps ih =>
    by_cases h : p.1 = k
    · simpa [mapDelete, h] using ih
    · simpa [mapDelete, mapFind, h] using ih

theorem mapFind_mapDelete_ne (l : List (String × Nat)) (k k2 : String)
    (h : ¬ k2 = k) : mapFind (mapDelete l k) k2 = mapFind l k2 := by
  induction l with
  | nil => simp [mapDelete, mapFind]
  | cons p ps ih =>
    by_cases hp : p.1 = k
    · have hp2 : ¬ p.1 = k2 := by
        rw [hp]
        exact fun hh => h hh.symm
      calc mapFind (mapDelete (p :: ps) k) k2
          = mapFind (mapDelete ps k) k2 := by simp [mapDelete, hp]
        _ = mapFind ps k2 := ih
        _ = mapFind (p :: ps) k2 := by simp [mapFind, hp2]
    · calc mapFind (mapDelete (p :: ps) k) k2
          = mapFind (p :: mapDelete ps k) k2 := by simp [mapDelete, hp]
        _ = (if p.1 = k2 then some p.2 else mapFind (mapDelete ps k) k2) := rfl
        _ = (if p.1 = k2 then some p.2 else mapFind ps k2) := by rw [ih]
        _ = mapFind (p :: ps) k2 := rfl

theorem two_le_length_of_mem_ne {α : Type} [DecidableEq α] {a b : α} {l : List α}
    (ha : a ∈ l) (hb : b ∈ l) (hne : ¬ a = b) : 2 ≤ l.length := by
  have hb2 : b ∈ l.erase a := (List.mem_erase_of_ne (fun h => hne h.symm)).mpr hb
  have h1 : 0 < (l.erase a).length := List.length_pos_of_mem hb2
  have h2 : (l.erase a).length = l.length - 1 := List.length_erase_of_mem ha
  have h3 : 0 < l.length := List.length_pos_of_mem ha
  omega

theorem length_filter_filter_le {α : Type} (r p : α → Bool) (l : List α) :
    ((l.filter r).filter p).length ≤ (l.filter p).length :=
  List.Sublist.length_le (List.Sublist.filter p (List.filter_sublist l))

/-- Outcome of a settled dispatch. -/
inductive Outcome where
  | success : Outcome
  | failure : Outcome
deriving Repr, DecidableEq

/-- Dedup bookkeeping of one `HttpService` instance: the
`pendingRequests` table (fingerprint to promise id), the next fresh
promise id, and the started-but-unsettled physical dispatches. -/
structure DedupState where
  pending : List (String × Nat)
  nextId : Nat
  outstanding : List (Nat × String)
deriving Repr, DecidableEq

/-- Embedding of `getDeduplicatedRequest` (http-service.ts lines
524-542): `none` unless deduplication is enabled and the fingerprint has
a pending promise, in which case that very promise is returned. -/
def getDeduplicatedRequest (enableDedup : Bool) (pending : List (String × Nat))
    (cacheKey : String) : Option Nat :=
  if !enableDedup || !(mapFind pending cacheKey).isSome then none
  else mapFind pending cacheKey

theorem getDedup_true_eq (pending : List (String × Nat)) (key : String) :
    getDeduplicatedRequest true pending key = mapFind pending key := by
  unfold getDeduplicatedRequest
  cases h : mapFind pending key <;> simp [h]

/-- The start of one `request` call past the cache check (http-service.ts
lines 582-598): a dedup hit returns the pending promise id with no new
dispatch and no state change; a miss dispatches a fresh promise and
registers it in the pending table before awaiting when deduplication is
enabled. Returns ((promise id, whether a new physical dispatch started),
successor state). -/
def startRequest (enableDedup : Bool) (key : String) (s : DedupState) :
    (Nat × Bool) × DedupState :=
  match getDeduplicatedRequest enableDedup s.pending key with
  | some pid => ((pid, false), s)
  | none =>
    ((s.nextId, true),
     ⟨if enableDedup then mapSet s.pending key s.nextId else s.pending,
      s.nextId + 1,
      (s.nextId, key) :: s.outstanding⟩)

/-- Settlement of a dispatched promise: the `finally` block of `request`
(http-service.ts lines 619-624) deletes the pending entry without
consulting the outcome, and the dispatch stops being outstanding. -/
def settleRequest (enableDedup : Bool) (pid : Nat) (key : String) (o : Outcome)
    (s : DedupState) : DedupState :=
  ⟨if enableDedup then mapDelete s.pending key else s.pending,
   s.nextId,
   s.outstanding.filter (fun q => decide (¬ q = (pid, key)))⟩

/-- Reachable dedup states of one client instance: from the empty table,
any interleaving of request starts and settlements of outstanding
dispatches. -/
inductive Reach (enableDedup : Bool) : DedupState → Prop where
  | init : Reach enableDedup ⟨[], 0, []⟩
  | start : ∀ s key, Reach enableDedup s →
      Reach enableDedup (startRequest enableDedup key s).2
  | settle : ∀ s pid key o, Reach enableDedup s → (pid, key) ∈ s.outstanding →
      Reach enableDedup (settleRequest enableDedup pid key o s)

/-- Number of outstanding physical dispatches for one fingerprint. -/
def outstandingFor (s : DedupState) (key : String) : Nat :=
  (s.outstanding.filter (fun q => decide (q.2 = key))).length

/-- Inductive invariant: with deduplication enabled, every outstanding
dispatch is registered in the pending table under its fingerprint, and no
fingerprint has more than one outstanding dispatch. -/
def DedupInv (s : DedupState) : Prop :=
  (∀ q, q ∈ s.outstanding → mapFind s.pending q.2 = some q.1)
  ∧ ∀ key, outstandingFor s key ≤ 1

theorem reach_dedupInv (s : DedupState) (hs : Reach true s) : DedupInv s := by
  induction hs with
  | init =>
    exact ⟨fun q hq => absurd hq (by simp), fun key => by simp [outstandingFor]⟩
  | start s key hsR ih =>
    rcases ih with ⟨ih1, ih2⟩
    rw [startRequest, getDedup_true_eq]
    cases hfind : mapFind s.pending key with
    | some pid => exact ⟨ih1, ih2⟩
    | none =>
      dsimp only
      have hnone : ∀ q, q ∈ s.outstanding → ¬ q.2 = key := by
        intro q hq hk
        have := ih1 q hq
        rw [hk, hfind] at this
        cases this
      constructor
      · intro q hq
        rcases List.mem_cons.mp hq with hq1 | hq2
        · subst hq1
          exact mapFind_mapSet_self s.pending key s.nextId
        · have hne := hnone q hq2
          rw [if_pos rfl, mapFind_mapSet_ne s.pending key q.2 s.nextId hne]
          exact ih1 q hq2
      · intro key2
        unfold outstandingFor
        dsimp only
        by_cases hk : key = key2
        · subst hk
          have hempty : s.outstanding.filter (fun q => decide (q.2 = key)) = [] := by
            rw [List.filter_eq_nil_iff]
            intro q hq
            simpa using hnone q hq
          simp [List.filter_cons, hempty]
        · have hcount := ih2 key2
          unfold outstandingFor at hcount
          simpa [List.filter_cons, hk] using hcount
  | settle s pid key o hsR hmem ih =>
    rcases ih with ⟨ih1, ih2⟩
    constructor
    · intro q hq
      dsimp [settleRequest] at hq ⊢
      rcases List.mem_filter.mp hq with ⟨hqmem, hqne⟩
      have hqne2 : ¬ q = (pid, key) := by simpa using hqne
      by_cases hk : q.2 = key
      · exfalso
        have h1 : q ∈ s.outstanding.filter (fun r => decide (r.2 = key)) :=
          List.mem_filter.mpr ⟨hqmem, by simp [hk]⟩
        have h2 : (pid, key) ∈ s.outstanding.filter (fun r => decide (r.2 = key)) :=
          List.mem_filter.mpr ⟨hmem, by simp⟩
        have hlen := two_le_length_of_mem_ne h1 h2 hqne2
        have hcount := ih2 key
        unfold outstandingFor at hcount
        omega
      · rw [mapFind_mapDelete_ne s.pending key q.2 hk]
        exact ih1 q hqmem
    · intro key2
      have hle := length_filter_filter_le (fun q => decide (¬ q = (pid, key)))
        (fun q => decide (q.2 = key2)) s.outstanding
      have hcount := ih2 key2
      unfold outstandingFor at hcount ⊢
      dsimp [settleRequest]
      omega

/-- C2: with deduplication enabled, in every reachable state at most one
physical dispatch is outstanding per fingerprint; a request whose
fingerprint is already pending is handed the very same in-flight promise
with no second dispatch and no state change; settlement removes the
pending entry identically on success and failure; and a request issued
after settlement dispatches fresh. -/
theorem dedup_single_flight (s : DedupState) (hs : Reach true s) :
    (∀ key, outstandingFor s key ≤ 1)
    ∧ (∀ key pid, mapFind s.pending key = some pid →
        startRequest true key s = ((pid, false), s)
        ∧ ∀ q, q ∈ s.outstanding → q.2 = key → q.1 = pid)
    ∧ (∀ pid key, settleRequest true pid key Outcome.success s
        = settleRequest true pid key Outcome.failure s)
    ∧ (∀ pid key o, mapFind (settleRequest true pid key o s).pending key = none
        ∧ (startRequest true key (settleRequest true pid key o s)).1.2 = true) := by
  have hinv := reach_dedupInv s hs
  rcases hinv with ⟨h1, h2⟩
  refine ⟨h2, ?_, fun pid key => rfl, ?_⟩
  · intro key pid hfind
    constructor
    · rw [startRequest, getDedup_true_eq, hfind]
    · intro q hq hk
      have := h1 q hq
      rw [hk, hfind] at this
      injection this with h
      exact h.symm
  · intro pid key o
    have hdel : mapFind (settleRequest true pid key o s).pending key = none := by
      dsimp [settleRequest]
      exact mapFind_mapDelete_self s.pending key
    refine ⟨hdel, ?_⟩
    rw [startRequest, getDedup_true_eq, hdel]

/-- Closed instance of `dedup_single_flight`: after one request starts
under fingerprint `GET:https://x/y:`, a second request with the same
fingerprint receives the same promise id 0 and changes nothing. -/
theorem dedup_single_flight_witness :
    startRequest true "GET:https://x/y:"
        (startRequest true "GET:https://x/y:" ⟨[], 0, []⟩).2
      = ((0, false), (startRequest true "GET:https://x/y:" ⟨[], 0, []⟩).2) :=
  ((dedup_single_flight (startRequest true "GET:https://x/y:" ⟨[], 0, []⟩).2
      (Reach.start ⟨[], 0, []⟩ "GET:https://x/y:" Reach.init)).2.1
    "GET:https://x/y:" 0 (by decide)).1

/-- The slice of `RequestConfig` (types.ts) the orchestration consults:
method, query parameters, the skip flags, and the body payload. -/
structure RequestCfg where
  method : Option String
  params : Option (List (String × Option ParamValue))
  skipCache : Bool
  skipAuth : Bool
  dataBody : Option String
deriving Repr, DecidableEq

/-- Removal of one trailing slash (the `TRAILING_SLASH_REGEX` replace). -/
def stripTrailingSlash (s : String) : String :=
  match s.toList.reverse with
  | c :: cs => if c = Char.ofNat 47 then String.mk cs.reverse else s
  | [] => s

/-- Removal of one leading slash (the `LEADING_SLASH_REGEX` replace). -/
def stripLeadingSlash (s : String) : String :=
  match s.toList with
  | c :: cs => if c = Char.ofNat 47 then String.mk cs else s
  | [] => s

/-- JavaScript `url.startsWith('http')`. -/
def jsStartsWithHttp (url : String) : Bool :=
  charsStartWith url.toList "http".toList

/-- Embedding of `createURL` (http-service.ts lines 124-138): prefix the
base URL onto relative URLs, then append the query string. -/
def createURL (baseURL : String) (url : String)
    (params : Option (List (String × Option ParamValue))) : String :=
  let fullURL :=
    if ¬ baseURL = "" ∧ ¬ jsStartsWithHttp url = true then
      stripTrailingSlash baseURL ++ "/" ++ stripLeadingSlash url
    else url
  buildURL fullURL params

/-- Embedding of the `HttpResponse` envelope (types.ts): decoded data,
numeric status, status text, header pairs, and the producing config. -/
structure HttpResponseRec (α : Type) where
  data : α
  status : Nat
  statusText : String
  headers : List (String × String)
  config : RequestCfg
deriving Repr, DecidableEq

/-- Embedding of `getCachedResponse` (http-service.ts lines 491-519).
`cached` is the result of the `HttpCache.get` lookup — the cache stores
only the response payload. On a hit the envelope is synthesised: status
200, status text OK, a fresh empty header collection, and the processed
config. -/
def getCachedResponse {α : Type} (enableCache : Bool) (processedConfig : RequestCfg)
    (cached : Option α) : Option (HttpResponseRec α) :=
  if !enableCache || processedConfig.skipCache
      || (processedConfig.method.isSome && !(decide (processedConfig.method = some "GET"))) then
    none
  else
    match cached with
    | some v => some ⟨v, 200, "OK", [], processedConfig⟩
    | none => none

/-- C10: every cache-served response carries synthesised metadata — its
status is 200, its status text is OK, its header collection is empty —
and its data is exactly the cached payload; the status text and headers
of the response that originally populated the cache are not preserved,
since the cache lookup yields only the payload. -/
theorem cache_hit_synthesized_metadata {α : Type} (enableCache : Bool)
    (cfg : RequestCfg) (cached : Option α) (r : HttpResponseRec α)
    (h : getCachedResponse enableCache cfg cached = some r) :
    r.status = 200 ∧ r.statusText = "OK" ∧ r.headers = []
    ∧ cached = some r.data ∧ r.config = cfg := by
  unfold getCachedResponse at h
  split_ifs at h
  cases cached with
  | none => simp at h
  | some v =>
    dsimp only at h
    injection h with h2
    rw [← h2]
    exact ⟨rfl, rfl, rfl, rfl, rfl⟩

/-- A sample synthesised cache-hit envelope. -/
def sampleCacheEnv : HttpResponseRec Nat :=
  ⟨42, 200, "OK", [], ⟨none, none, false, false, none⟩⟩

/-- Closed instance of `cache_hit_synthesized_metadata` at payload 42. -/
theorem cache_hit_synthesized_metadata_witness :
    sampleCacheEnv.status = 200 ∧ sampleCacheEnv.statusText = "OK"
    ∧ sampleCacheEnv.headers = [] ∧ some 42 = some sampleCacheEnv.data
    ∧ sampleCacheEnv.config = ⟨none, none, false, false, none⟩ :=
  cache_hit_synthesized_metadata true ⟨none, none, false, false, none⟩ (some 42)
    sampleCacheEnv rfl

/-- Observable outcome of one `request` call (http-service.ts lines
566-625): the returned envelope or thrown error, whether it was served
from the cache, the number of physical transport dispatches, whether the
response-interceptor chain ran, and the URL/config pair the cache store
was consulted with. -/
structure FlowResult (α : Type) where
  result : Except HttpServiceError (HttpResponseRec α)
  servedFromCache : Bool
  transportDispatches : Nat
  respInterceptorsRan : Bool
  cacheProbe : Option (String × RequestCfg)
deriving Repr

/-- Embedding of the `request` orchestration (http-service.ts lines
566-625) for a call that does not join an earlier deduplicated promise
(the pending table itself is modelled by `startRequest`/`settleRequest`):
request interceptors run first, the full URL is resolved from the
processed config, the cache is probed with that processed URL and
config, and a hit is returned directly (lines 577-580); otherwise the
dispatch runs through `makeRequest` and only a success passes through
the response-interceptor chain (lines 601-604). The cache write-back of
a success does not affect the values returned to the caller. -/
def requestFlow {α : Type} (reqChain : RequestCfg → RequestCfg)
    (respChain : HttpResponseRec α → HttpResponseRec α)
    (errChain : HttpServiceError → HttpServiceError)
    (enableCache : Bool) (baseURL : String)
    (cacheGet : String → RequestCfg → Option α)
    (dispatch : Nat → Except RawError (HttpResponseRec α))
    (retries rd : Nat)
    (url : String) (cfg : RequestCfg) : FlowResult α :=
  let processedConfig := reqChain cfg
  let fullURL := createURL baseURL url processedConfig.params
  match getCachedResponse enableCache processedConfig (cacheGet fullURL processedConfig) with
  | some r => ⟨.ok r, true, 0, false, some (fullURL, processedConfig)⟩
  | none =>
    let log := makeRequest dispatch errChain retries rd 0
    match log.result with
    | .ok resp =>
      ⟨.ok (respChain resp), false, log.dispatches, true, some (fullURL, processedConfig)⟩
    | .error e =>
      ⟨.error e, false, log.dispatches, false, some (fullURL, processedConfig)⟩

/-- A response interceptor that visibly rewrites the status. -/
def respBump (r : HttpResponseRec Nat) : HttpResponseRec Nat :=
  { r with status := 299 }

/-- C5 counterexample: on a genuine cache hit the synthesised envelope is
returned directly — the registered response interceptor (which would have
rewritten the status to 299) never runs on it. -/
theorem cache_hit_no_resp_interceptors_cex :
    requestFlow id respBump id true "" (fun _ _ => some 7)
        (fun _ => Except.error RawError.nonError) 3 1000 "u" ⟨none, none, false, false, none⟩
      = ⟨.ok ⟨7, 200, "OK", [], ⟨none, none, false, false, none⟩⟩, true, 0, false,
         some ("u", ⟨none, none, false, false, none⟩)⟩
    ∧ respBump ⟨7, 200, "OK", [], ⟨none, none, false, false, none⟩⟩
        ≠ ⟨7, 200, "OK", [], ⟨none, none, false, false, none⟩⟩ := by
  exact ⟨rfl, by decide⟩

/-- C5 amended: on a genuine cache hit, no transport call is made and the
cache is probed with the interceptor-processed URL and config — request
interceptors have already run before the cache check — but the
cache-hit-derived envelope is returned directly to the caller WITHOUT
running the registered response interceptors. -/
theorem cache_hit_flow_spec {α : Type} (reqChain : RequestCfg → RequestCfg)
    (respChain : HttpResponseRec α → HttpResponseRec α)
    (errChain : HttpServiceError → HttpServiceError)
    (baseURL : String) (cacheGet : String → RequestCfg → Option α)
    (dispatch : Nat → Except RawError (HttpResponseRec α)) (retries rd : Nat)
    (url : String) (cfg : RequestCfg) (r : HttpResponseRec α)
    (hhit : getCachedResponse true (reqChain cfg)
        (cacheGet (createURL baseURL url (reqChain cfg).params) (reqChain cfg)) = some r) :
    requestFlow reqChain respChain errChain true baseURL cacheGet dispatch retries rd url cfg
      = ⟨.ok r, true, 0, false,
         some (createURL baseURL url (reqChain cfg).params, reqChain cfg)⟩ := by
  unfold requestFlow
  dsimp only
  rw [hhit]

/-- Closed instance of `cache_hit_flow_spec` at a concrete hit. -/
theorem cache_hit_flow_spec_witness :
    requestFlow id id id true "" (fun _ _ => some 5)
        (fun _ => Except.error RawError.nonError) 3 1000 "u" ⟨none, none, false, false, none⟩
      = ⟨.ok ⟨5, 200, "OK", [], ⟨none, none, false, false, none⟩⟩, true, 0, false,
         some ("u", ⟨none, none, false, false, none⟩)⟩ :=
  cache_hit_flow_spec id id id "" (fun _ _ => some 5)
    (fun _ => Except.error RawError.nonError) 3 1000 "u" ⟨none, none, false, false, none⟩
    ⟨5, 200, "OK", [], ⟨none, none, false, false, none⟩⟩ rfl

end HttpSpec
